import Mathlib

/-!
Shallow embedding of the SalesDashboard backend analytical engine
(`src/server.js`).  JavaScript numbers are modeled as exact rationals
(`Rat`); a JS number that can be `NaN` is modeled as `Option Rat` /
`Option Int` with `none` standing for `NaN`.  `Math.round` rounds half
toward positive infinity, i.e. `Math.round x = ⌊x + 1/2⌋`.
Calendar dates (`new Date("YYYY-MM-DD")`) are modeled as year/month/day
triples in UTC; an unparseable date (JS `Invalid Date`, whose epoch value
is `NaN`) is modeled as `none`.  All record collections are `List`s in
request order.
-/

/-- `Math.round`: round half up (toward +∞). -/
def jsRound (q : Rat) : Int := ⌊q + 1/2⌋

/-- A parsed calendar date (UTC), as produced by `parseDate` on a valid
`YYYY-MM-DD` string. -/
structure DateT where
  year : Nat
  month : Nat
  day : Nat
deriving DecidableEq

/-- A calendar-valid month/day combination (what the spec calls a valid
calendar date; day upper bound 31 suffices for every lemma here). -/
def ValidDate (d : DateT) : Prop :=
  1 ≤ d.month ∧ d.month ≤ 12 ∧ 1 ≤ d.day ∧ d.day ≤ 31

/-- Chronological strict order on valid dates; JS compares the epoch
millisecond values, which for valid calendar dates is exactly the
lexicographic year/month/day order. -/
def DateT.chronLT (a b : DateT) : Bool :=
  a.year < b.year
    || (a.year = b.year
        && (a.month < b.month || (a.month = b.month && a.day < b.day)))

/-- Chronological (inclusive) order on valid dates, the model of the JS
`<=` / `>=` comparisons between two valid `Date` values. -/
def DateT.chronLE (a b : DateT) : Bool :=
  a.year < b.year
    || (a.year = b.year
        && (a.month < b.month || (a.month = b.month && a.day ≤ b.day)))

/-- The character for one decimal digit, `'0'`–`'9'`. -/
def digitChar (d : Nat) : Char := Char.ofNat (48 + d)

/-- Decimal digits of a natural number, most significant first (the digit
sequence JS `String(n)` / `Number.prototype.toString` prints). -/
def natDigits (n : Nat) : List Nat :=
  if _h : n < 10 then [n] else natDigits (n / 10) ++ [n % 10]
decreasing_by exact Nat.div_lt_self (by omega) (by omega)

/-- Model of JS `String(n)` for a non-negative integer: its decimal
digits, unpadded. -/
def jsNatToString (n : Nat) : String := ⟨(natDigits n).map digitChar⟩

/-- Model of JS `String(n).padStart(2, "0")`. -/
def pad2 (n : Nat) : String :=
  if n < 10 then ⟨'0' :: (natDigits n).map digitChar⟩ else jsNatToString n

/-- The year as printed inside `Date.prototype.toISOString`, which pads
to four digits for years 0–9999 (the model is only used on that range). -/
def pad4 (n : Nat) : String :=
  if n < 10 then ⟨'0' :: '0' :: '0' :: (natDigits n).map digitChar⟩
  else if n < 100 then ⟨'0' :: '0' :: (natDigits n).map digitChar⟩
  else if n < 1000 then ⟨'0' :: (natDigits n).map digitChar⟩
  else jsNatToString n

/-- `date.toISOString().split("T")[0]`: the `YYYY-MM-DD` day key. -/
def isoDay (d : DateT) : String :=
  pad4 d.year ++ "-" ++ pad2 d.month ++ "-" ++ pad2 d.day

/-- The period key derived in `/api/sales-trend` for a valid date:
`monthly` uses `getFullYear() + "-" + pad2 (getMonth()+1)` (year not
zero-padded), `yearly` uses `getFullYear().toString()`, and every other
period string falls through to the ISO day key. -/
def periodKey (period : String) (d : DateT) : String :=
  if period = "monthly" then jsNatToString d.year ++ "-" ++ pad2 d.month
  else if period = "yearly" then jsNatToString d.year
  else isoDay d

/-- One sales transaction (`SalesRecord`); `orderDate` is the already
parsed `Order Date` field, `none` when the raw string does not parse. -/
structure SalesRecord where
  orderDate : Option DateT
  customerId : String
  customerName : String
  state : String
  region : String
  city : String
  productName : String
  category : String
  subCategory : String
  segment : String
  sales : Rat
  profit : Rat
  discount : Rat
  quantity : Nat
deriving DecidableEq

/-- `filterData(data, state, fromDate, toDate)` from `src/server.js`.
`none` criteria model absent (or empty-string, hence falsy) query
parameters.  A record whose date failed to parse compares as JS `NaN`,
so it fails every `>=` / `<=` check. -/
def filterData (data : List SalesRecord) (state : Option String)
    (fromDate toDate : Option DateT) : List SalesRecord :=
  data.filter fun item =>
    (match state with
      | none => true
      | some s => item.state == s)
    && ((match fromDate, item.orderDate with
          | none, _ => true
          | some _, none => false
          | some f, some d => DateT.chronLE f d)
        && (match toDate, item.orderDate with
          | none, _ => true
          | some _, none => false
          | some t, some d => DateT.chronLE d t))

/-- The second, independent customer pass used by the dashboard and
trend endpoints (`if (customerId) filteredData = filteredData.filter(...)`). -/
def applyCustomerFilter (data : List SalesRecord) (customerId : Option String) :
    List SalesRecord :=
  match customerId with
  | none => data
  | some cid => data.filter fun item => item.customerId == cid

/-- Full filter pipeline of `/api/dashboard-data`: state/date filter,
then the optional customer pass. -/
def applyFilters (data : List SalesRecord) (state : Option String)
    (fromDate toDate : Option DateT) (customerId : Option String) :
    List SalesRecord :=
  applyCustomerFilter (filterData data state fromDate toDate) customerId

/-- One `obj[key] = …; obj[key] += …` step of the JS object-keyed
accumulation.  An absent key is appended at the end (JS insertion
order); a present key is updated in place.  The JS ensure-initialize
then update pair collapses to `ini r` on first sight and `upd v r`
afterwards. -/
def upsertOne {β : Type} (k : String) (ini : SalesRecord → β)
    (upd : β → SalesRecord → β) (r : SalesRecord) :
    List (String × β) → List (String × β)
  | [] => [(k, ini r)]
  | (k', v) :: rest =>
    if k' = k then (k', upd v r) :: rest
    else (k', v) :: upsertOne k ini upd r rest

/-- A whole `forEach` accumulation pass: fold the records left to right,
keeping the association list in first-occurrence key order, exactly as a
JS object keyed by strings enumerates. -/
def accumBy {β : Type} (key : SalesRecord → String) (ini : SalesRecord → β)
    (upd : β → SalesRecord → β) (data : List SalesRecord) : List (String × β) :=
  data.foldl (fun acc r => upsertOne (key r) ini upd r acc) []

/-- First-occurrence deduplication of a key sequence: the key order a JS
string-keyed object enumerates after inserting the keys left to right. -/
def firstDedup (l : List String) : List String :=
  l.foldl (fun ks k => if k ∈ ks then ks else ks ++ [k]) []

/-- Stable descending sort by an integer metric: the model of JS
`array.sort((a, b) => metric(b) - metric(a))` (ES `Array.prototype.sort`
is stable). -/
def sortDescBy {β : Type} (metric : β → Int) (l : List β) : List β :=
  l.mergeSort fun a b => decide (metric b ≤ metric a)

/-- Running total of `item.Sales` (`reduce((sum, item) => sum + item.Sales, 0)`). -/
def totalSalesR (data : List SalesRecord) : Rat :=
  data.foldl (fun s r => s + r.sales) 0

/-- Running total of `item.Profit`. -/
def totalProfitR (data : List SalesRecord) : Rat :=
  data.foldl (fun s r => s + r.profit) 0

/-- Running total of `item.Quantity`. -/
def totalQuantityN (data : List SalesRecord) : Nat :=
  data.foldl (fun s r => s + r.quantity) 0

/-- The `avgDiscount` computation of `/api/dashboard-data`: mean of the
discounts over the records with `Discount > 0`, times 100 — with an
explicit `: 0` default when no record carries a discount. -/
def avgDiscount (data : List SalesRecord) : Rat :=
  let dd := data.filter fun r => decide (0 < r.discount)
  if 0 < dd.length then
    dd.foldl (fun s r => s + r.discount) 0 / (dd.length : Rat) * 100
  else 0

/-- The dashboard `cards` block.  `discountPercentage` is typed
`Option Rat` because a JS average can in principle be `NaN` (`none`);
the source's `: 0` guard makes the computed value always `some _`. -/
structure Cards where
  totalSales : Int
  quantitySold : Nat
  discountPercentage : Option Rat
  profit : Int
deriving DecidableEq

/-- `cards` of `/api/dashboard-data` over the already filtered data. -/
def dashboardCards (data : List SalesRecord) : Cards :=
  { totalSales := jsRound (totalSalesR data)
    quantitySold := totalQuantityN data
    discountPercentage := some ((jsRound (avgDiscount data * 10) : Rat) / 10)
    profit := jsRound (totalProfitR data) }

/-- One externalized `{key, sales}` chart entry (the JSON field holding
the key is `city` / `productName` / `category` / `subCategory` /
`segment` depending on the chart). -/
structure SalesEntry where
  key : String
  sales : Int
deriving DecidableEq

/-- Group `item.Sales` sums by a string key (the repeated
`salesByX[key] += item.Sales` pattern). -/
def sumByKey (key : SalesRecord → String) (data : List SalesRecord) :
    List (String × Rat) :=
  accumBy key (fun r => r.sales) (fun v r => v + r.sales) data

/-- Externalize grouped sums: `Math.round` each monetary sum. -/
def roundEntries (l : List (String × Rat)) : List SalesEntry :=
  l.map fun p => ⟨p.1, jsRound p.2⟩

/-- `salesByCityArray` before `slice(0, 10)`. -/
def salesByCitySorted (data : List SalesRecord) : List SalesEntry :=
  sortDescBy (·.sales) (roundEntries (sumByKey (·.city) data))

/-- `salesByCityArray`: top ten cities by rounded sales. -/
def salesByCityArray (data : List SalesRecord) : List SalesEntry :=
  (salesByCitySorted data).take 10

/-- `salesByProductArray` before `slice(0, 10)`. -/
def salesByProductSorted (data : List SalesRecord) : List SalesEntry :=
  sortDescBy (·.sales) (roundEntries (sumByKey (·.productName) data))

/-- `salesByProductArray`: top ten products by rounded sales. -/
def salesByProductArray (data : List SalesRecord) : List SalesEntry :=
  (salesByProductSorted data).take 10

/-- `salesByCategoryArray`: the source maps the grouped sums straight to
the payload with no `.sort(...)` call, so the entries stay in
first-occurrence key order. -/
def salesByCategoryArray (data : List SalesRecord) : List SalesEntry :=
  roundEntries (sumByKey (·.category) data)

/-- `salesBySubCategoryArray` before `slice(0, 10)`. -/
def salesBySubCategorySorted (data : List SalesRecord) : List SalesEntry :=
  sortDescBy (·.sales) (roundEntries (sumByKey (·.subCategory) data))

/-- `salesBySubCategoryArray`: top ten sub-categories by rounded sales. -/
def salesBySubCategoryArray (data : List SalesRecord) : List SalesEntry :=
  (salesBySubCategorySorted data).take 10

/-- `salesBySegmentArray`: like the category array, never sorted. -/
def salesBySegmentArray (data : List SalesRecord) : List SalesEntry :=
  roundEntries (sumByKey (·.segment) data)

/-- One `{id, name}` entry of `/api/customers`. -/
structure CustomerEntry where
  id : String
  name : String
deriving DecidableEq

/-- `/api/customers`: the source spreads `new Set(salesData.map(item =>
({id, name})))` — a `Set` of freshly allocated objects, which JS compares
by reference, so the spread returns every mapped object unchanged — and
then sorts by name (`localeCompare`, modeled as the code-unit order). -/
def customersData (data : List SalesRecord) : List CustomerEntry :=
  (data.map fun r => (⟨r.customerId, r.customerName⟩ : CustomerEntry)).mergeSort
    fun a b => decide (a.name ≤ b.name)

/-- Per-period accumulator of `/api/sales-trend`. -/
structure TrendAcc where
  sales : Rat
  profit : Rat
  quantity : Nat
deriving DecidableEq

/-- Externalized trend entry. -/
structure TrendEntry where
  period : String
  sales : Int
  profit : Int
  quantity : Nat
deriving DecidableEq

/-- The period key of one record, as a JS value: a record whose date did
not parse yields `getFullYear() = NaN`, hence the literal keys
`"NaN-NaN"` / `"NaN"` for the two recognized granularities, while the
fallthrough branch calls `toISOString`, which throws on an invalid date
(modeled as `none`). -/
def trendKey (period : String) (r : SalesRecord) : Option String :=
  match r.orderDate with
  | some d => some (periodKey period d)
  | none =>
    if period = "monthly" then some "NaN-NaN"
    else if period = "yearly" then some "NaN"
    else none

/-- The grouped trend accumulators in first-occurrence key order;
`none` when some record made the key derivation throw. -/
def trendFold (period : String) (data : List SalesRecord) :
    Option (List (String × TrendAcc)) :=
  data.foldlM
    (fun acc r =>
      (trendKey period r).map fun k =>
        upsertOne k (fun r => ⟨r.sales, r.profit, r.quantity⟩)
          (fun a r => ⟨a.sales + r.sales, a.profit + r.profit, a.quantity + r.quantity⟩)
          r acc)
    []

/-- `/api/sales-trend` payload: round the per-bucket monetary sums, then
sort ascending by period key (`localeCompare`, modeled as the code-unit
order). -/
def trendArray (period : String) (data : List SalesRecord) :
    Option (List TrendEntry) :=
  (trendFold period data).map fun l =>
    ((l.map fun p =>
        (⟨p.1, jsRound p.2.sales, jsRound p.2.profit, p.2.quantity⟩ : TrendEntry)).mergeSort
      fun a b => decide (a.period ≤ b.period))

/-- Raw per-product accumulator of `/api/analytics`; `category` is
taken from the first record of the group. -/
structure ProdAcc where
  productName : String
  category : String
  totalSales : Rat
  totalProfit : Rat
  totalQuantity : Nat
  orderCount : Nat
deriving DecidableEq

/-- `productPerformance` accumulation pass. -/
def prodAccum (data : List SalesRecord) : List (String × ProdAcc) :=
  accumBy (·.productName)
    (fun r => ⟨r.productName, r.category, r.sales, r.profit, r.quantity, 1⟩)
    (fun a r =>
      ⟨a.productName, a.category, a.totalSales + r.sales, a.totalProfit + r.profit,
        a.totalQuantity + r.quantity, a.orderCount + 1⟩)
    data

/-- Externalized per-product entry. -/
structure ProdEntry where
  productName : String
  category : String
  totalSales : Int
  totalProfit : Int
  totalQuantity : Nat
  orderCount : Nat
  avgOrderValue : Int
deriving DecidableEq

/-- Externalization of one product group.  In the source's object
literal, `avgOrderValue: Math.round(item.totalSales / item.orderCount)`
reads `item` — the raw accumulator — so the division uses the unrounded
sum, not the rounded `totalSales` written two lines above.  A group's
`orderCount` is at least 1, so the division never hits zero. -/
def prodEntryOf (a : ProdAcc) : ProdEntry :=
  ⟨a.productName, a.category, jsRound a.totalSales, jsRound a.totalProfit,
    a.totalQuantity, a.orderCount, jsRound (a.totalSales / (a.orderCount : Rat))⟩

/-- `topProducts` before `slice(0, 10)`: externalize, then stable sort
by rounded `totalSales` descending. -/
def topProductsSorted (data : List SalesRecord) : List ProdEntry :=
  sortDescBy (·.totalSales) ((prodAccum data).map fun p => prodEntryOf p.2)

/-- `topProducts`: the first ten sorted product entries. -/
def topProducts (data : List SalesRecord) : List ProdEntry :=
  (topProductsSorted data).take 10

/-- Raw per-region accumulator of `/api/analytics`. -/
structure RegionAcc where
  sales : Rat
  profit : Rat
  orders : Nat
deriving DecidableEq

/-- Externalized per-region entry. -/
structure RegionEntry where
  region : String
  sales : Int
  profit : Int
  orders : Nat
  avgOrderValue : Int
deriving DecidableEq

/-- `regionalPerformance` accumulation pass (the `region` name is the
group key itself). -/
def regionAccum (data : List SalesRecord) : List (String × RegionAcc) :=
  accumBy (·.region) (fun r => ⟨r.sales, r.profit, 1⟩)
    (fun a r => ⟨a.sales + r.sales, a.profit + r.profit, a.orders + 1⟩) data

/-- Externalization of one region group; as for products, the
`avgOrderValue` division reads the raw accumulator's unrounded sum. -/
def regionEntryOf (k : String) (a : RegionAcc) : RegionEntry :=
  ⟨k, jsRound a.sales, jsRound a.profit, a.orders,
    jsRound (a.sales / (a.orders : Rat))⟩

/-- `regionArray`: externalized region groups, never sorted and never
truncated. -/
def regionArray (data : List SalesRecord) : List RegionEntry :=
  (regionAccum data).map fun p => regionEntryOf p.1 p.2

/-- The `/api/analytics` `summary` block.  `avgOrderValue` is
`Math.round(totalSales / totalOrders)`; with zero filtered records the
division is `0 / 0 = NaN` and `Math.round(NaN) = NaN`, modeled as
`none`. -/
structure AnalyticsSummary where
  totalOrders : Nat
  uniqueCustomers : Nat
  avgOrderValue : Option Int
  totalCategories : Nat
deriving DecidableEq

/-- `summary` of `/api/analytics` over the filtered data. -/
def analyticsSummary (data : List SalesRecord) : AnalyticsSummary :=
  { totalOrders := data.length
    uniqueCustomers := (data.map (·.customerId)).dedup.length
    avgOrderValue :=
      if data.length = 0 then none
      else some (jsRound (totalSalesR data / (data.length : Rat)))
    totalCategories := (data.map (·.category)).dedup.length }

/-- A baseline concrete record used by the concrete scenarios. -/
def baseRec : SalesRecord :=
  { orderDate := some ⟨2016, 1, 5⟩, customerId := "CG-12520",
    customerName := "Claire Gute", state := "California", region := "West",
    city := "Los Angeles", productName := "Bookcase", category := "Furniture",
    subCategory := "Bookcases", segment := "Consumer",
    sales := 100, profit := 10, discount := 0, quantity := 1 }

/-- Second record of the spec's dashboard-cards scenario:
sales 200, quantity 2, discount 0.2, profit 20. -/
def cardRec2 : SalesRecord :=
  { baseRec with sales := 200, profit := 20, discount := 0.2, quantity := 2 }

/-- A record with fractional sales 0.3, exhibiting the rounding order of
`avgOrderValue`. -/
def fracRec : SalesRecord :=
  { baseRec with productName := "Pencil", sales := 3/10, profit := 0 }

/-- Technology record with sales 1 (first-occurrence order scenario). -/
def catRecB : SalesRecord := { baseRec with category := "Technology", sales := 1 }

/-- Furniture record with sales 2 (first-occurrence order scenario). -/
def catRecA : SalesRecord := { baseRec with sales := 2 }

theorem upsertOne_map_fst {β : Type} (k : String) (ini : SalesRecord → β)
    (upd : β → SalesRecord → β) (r : SalesRecord) (acc : List (String × β)) :
    (upsertOne k ini upd r acc).map Prod.fst =
      if k ∈ acc.map Prod.fst then acc.map Prod.fst else acc.map Prod.fst ++ [k] := by
  induction acc with
  | nil => simp [upsertOne]
  | cons p rest ih =>
    obtain ⟨k', v⟩ := p
    by_cases h : k' = k
    · subst h
      simp [upsertOne]
    · rw [show upsertOne k ini upd r ((k', v) :: rest)
            = (k', v) :: upsertOne k ini upd r rest from by rw [upsertOne, if_neg h]]
      simp only [List.map_cons, ih, List.mem_cons]
      by_cases hmem : k ∈ rest.map Prod.fst
      · rw [if_pos hmem, if_pos (Or.inr hmem)]
      · rw [if_neg hmem, if_neg (by
          rintro (rfl | hk)
          · exact h rfl
          · exact hmem hk)]
        rfl

theorem accumBy_foldl_map_fst {β : Type} (key : SalesRecord → String)
    (ini : SalesRecord → β) (upd : β → SalesRecord → β)
    (data : List SalesRecord) (acc : List (String × β)) :
    (data.foldl (fun a r => upsertOne (key r) ini upd r a) acc).map Prod.fst =
      data.foldl (fun ks r => if key r ∈ ks then ks else ks ++ [key r])
        (acc.map Prod.fst) := by
  induction data generalizing acc with
  | nil => rfl
  | cons r rest ih =>
    simp only [List.foldl_cons, ih, upsertOne_map_fst]

theorem accumBy_map_fst {β : Type} (key : SalesRecord → String)
    (ini : SalesRecord → β) (upd : β → SalesRecord → β) (data : List SalesRecord) :
    (accumBy key ini upd data).map Prod.fst = firstDedup (data.map key) := by
  rw [accumBy, accumBy_foldl_map_fst, firstDedup, List.foldl_map]
  rfl

theorem firstDedup_foldl_nodup (l : List String) (acc : List String)
    (h : acc.Nodup) :
    (l.foldl (fun ks k => if k ∈ ks then ks else ks ++ [k]) acc).Nodup := by
  induction l generalizing acc with
  | nil => exact h
  | cons x xs ih =>
    simp only [List.foldl_cons]
    by_cases hx : x ∈ acc
    · rw [if_pos hx]
      exact ih _ h
    · rw [if_neg hx]
      refine ih _ ?_
      simp [List.nodup_append, h, hx]

theorem firstDedup_foldl_toFinset (l : List String) (acc : List String) :
    (l.foldl (fun ks k => if k ∈ ks then ks else ks ++ [k]) acc).toFinset =
      acc.toFinset ∪ l.toFinset := by
  induction l generalizing acc with
  | nil => simp
  | cons x xs ih =>
    simp only [List.foldl_cons, List.toFinset_cons]
    by_cases hx : x ∈ acc
    · rw [if_pos hx, ih]
      ext a
      simp only [Finset.mem_union, List.mem_toFinset, Finset.mem_insert]
      constructor
      · rintro (ha | ha)
        · exact Or.inl ha
        · exact Or.inr (Or.inr ha)
      · rintro (ha | rfl | ha)
        · exact Or.inl ha
        · exact Or.inl hx
        · exact Or.inr ha
    · rw [if_neg hx, ih]
      ext a
      simp only [Finset.mem_union, List.mem_toFinset, List.mem_append,
        List.mem_singleton, Finset.mem_insert]
      constructor
      · rintro ((ha | rfl) | ha)
        · exact Or.inl ha
        · exact Or.inr (Or.inl rfl)
        · exact Or.inr (Or.inr ha)
      · rintro (ha | rfl | ha)
        · exact Or.inl (Or.inl ha)
        · exact Or.inl (Or.inr rfl)
        · exact Or.inr ha

theorem firstDedup_nodup (l : List String) : (firstDedup l).Nodup :=
  firstDedup_foldl_nodup l [] (by simp)

theorem firstDedup_toFinset (l : List String) :
    (firstDedup l).toFinset = l.toFinset := by
  rw [firstDedup, firstDedup_foldl_toFinset]
  simp

theorem firstDedup_length (l : List String) :
    (firstDedup l).length = l.toFinset.card := by
  rw [← firstDedup_toFinset, List.toFinset_card_of_nodup (firstDedup_nodup l)]

theorem accumBy_length {β : Type} (key : SalesRecord → String)
    (ini : SalesRecord → β) (upd : β → SalesRecord → β) (data : List SalesRecord) :
    (accumBy key ini upd data).length = (data.map key).toFinset.card := by
  have h := congrArg List.length (accumBy_map_fst key ini upd data)
  simpa [firstDedup_length] using h

theorem sortDescBy_trans {β : Type} (metric : β → Int) :
    ∀ a b c : β, decide (metric b ≤ metric a) = true →
      decide (metric c ≤ metric b) = true → decide (metric c ≤ metric a) = true := by
  intro a b c h1 h2
  simp only [decide_eq_true_eq] at *
  exact le_trans h2 h1

theorem sortDescBy_total {β : Type} (metric : β → Int) :
    ∀ a b : β, (decide (metric b ≤ metric a) || decide (metric a ≤ metric b)) = true := by
  intro a b
  rcases Int.le_total (metric b) (metric a) with h | h <;> simp [h]

theorem sortDescBy_pairwise {β : Type} (metric : β → Int) (l : List β) :
    (sortDescBy metric l).Pairwise fun a b => metric b ≤ metric a := by
  refine List.Pairwise.imp (fun h => of_decide_eq_true h) ?_
  exact List.sorted_mergeSort (sortDescBy_trans metric) (sortDescBy_total metric) l

theorem sortDescBy_perm {β : Type} (metric : β → Int) (l : List β) :
    (sortDescBy metric l).Perm l :=
  List.mergeSort_perm l _

theorem sortDescBy_stable {β : Type} (metric : β → Int) (l : List β) (v : Int) :
    (sortDescBy metric l).filter (fun b => metric b == v) =
      l.filter (fun b => metric b == v) := by
  have hself : (l.filter (fun b => metric b == v)).filter (fun b => metric b == v)
      = l.filter (fun b => metric b == v) :=
    List.filter_eq_self.mpr fun a ha => (List.mem_filter.mp ha).2
  have hpw : (l.filter (fun b => metric b == v)).Pairwise
      fun a b => decide (metric b ≤ metric a) = true := by
    rw [List.pairwise_iff_forall_sublist]
    intro a b hab
    have ha : metric a = v := by
      have := (List.mem_filter.mp (hab.subset (show a ∈ [a, b] by simp))).2
      simpa using this
    have hb : metric b = v := by
      have := (List.mem_filter.mp (hab.subset (show b ∈ [a, b] by simp))).2
      simpa using this
    simp [ha, hb]
  have hsub : (l.filter (fun b => metric b == v)).Sublist (sortDescBy metric l) :=
    List.sublist_mergeSort (sortDescBy_trans metric) (sortDescBy_total metric)
      hpw (List.filter_sublist l)
  have hsub2 : (l.filter (fun b => metric b == v)).Sublist
      ((sortDescBy metric l).filter (fun b => metric b == v)) := by
    have := hsub.filter (fun b => metric b == v)
    rwa [hself] at this
  have hlen : ((sortDescBy metric l).filter (fun b => metric b == v)).length
      = (l.filter (fun b => metric b == v)).length :=
    ((sortDescBy_perm metric l).filter _).length_eq
  exact (hsub2.eq_of_length hlen.symm).symm

/-- C1: for every record sequence and every criteria, the filter pipeline
returns a subsequence of the input in original order; with all criteria
absent the output equals the input; and a record is in the result of
`filterData` iff it is in the input, matches the state exactly
(case-sensitive string equality), and its date lies inside the inclusive
`fromDate`/`toDate` bounds whenever those are present. -/
theorem filterData_subsequence_and_semantics :
    (∀ (data : List SalesRecord) (s : Option String) (f t : Option DateT)
        (c : Option String), (applyFilters data s f t c).Sublist data)
    ∧ (∀ data : List SalesRecord, applyFilters data none none none none = data)
    ∧ (∀ (data : List SalesRecord) (s : Option String) (f t : Option DateT)
        (r : SalesRecord),
        r ∈ filterData data s f t ↔
          r ∈ data
          ∧ (∀ sv, s = some sv → r.state = sv)
          ∧ (∀ fv, f = some fv → ∃ d, r.orderDate = some d ∧ DateT.chronLE fv d = true)
          ∧ (∀ tv, t = some tv → ∃ d, r.orderDate = some d ∧ DateT.chronLE d tv = true)) := by
  refine ⟨?_, ?_, ?_⟩
  · intro data s f t c
    cases c with
    | none => exact List.filter_sublist data
    | some cid => exact (List.filter_sublist _).trans (List.filter_sublist data)
  · intro data
    simp [applyFilters, applyCustomerFilter, filterData]
  · intro data s f t r
    rw [filterData, List.mem_filter]
    simp only [Bool.and_eq_true]
    constructor
    · rintro ⟨hmem, hs, hf, ht⟩
      refine ⟨hmem, ?_, ?_, ?_⟩
      · rintro sv rfl
        simpa using hs
      · rintro fv rfl
        cases hd : r.orderDate with
        | none => rw [hd] at hf; exact absurd hf (by simp)
        | some d => rw [hd] at hf; exact ⟨d, rfl, hf⟩
      · rintro tv rfl
        cases hd : r.orderDate with
        | none => rw [hd] at ht; exact absurd ht (by simp)
        | some d => rw [hd] at ht; exact ⟨d, rfl, ht⟩
    · rintro ⟨hmem, hs, hf, ht⟩
      refine ⟨hmem, ?_, ?_, ?_⟩
      · cases s with
        | none => rfl
        | some sv => simpa using hs sv rfl
      · cases hfv : f with
        | none => rfl
        | some fv =>
          obtain ⟨d, hd, hle⟩ := hf fv hfv
          rw [hd]
          exact hle
      · cases htv : t with
        | none => rfl
        | some tv =>
          obtain ⟨d, hd, hle⟩ := ht tv htv
          rw [hd]
          exact hle

/-- C1 witness: the membership characterization applied at a concrete
record and concrete present bounds. -/
theorem filterData_subsequence_and_semantics_witness :
    baseRec ∈ filterData [baseRec] (some "California")
      (some ⟨2016, 1, 1⟩) (some ⟨2016, 12, 31⟩) :=
  (filterData_subsequence_and_semantics.2.2 [baseRec] (some "California")
      (some ⟨2016, 1, 1⟩) (some ⟨2016, 12, 31⟩) baseRec).mpr
    ⟨List.mem_singleton.mpr rfl,
      fun sv h => by cases h; rfl,
      fun fv h => by cases h; exact ⟨⟨2016, 1, 5⟩, rfl, by decide⟩,
      fun tv h => by cases h; exact ⟨⟨2016, 1, 5⟩, rfl, by decide⟩⟩

/-- C3: with at least one discounted record, `discountPercentage` is the
mean discount over exactly the records with positive discount, times 100,
rounded to one decimal; and the spec's two-record scenario yields
`totalSales = 300`, `quantitySold = 3`, `profit = 30`,
`discountPercentage = 20.0`. -/
theorem dashboard_discountPercentage_mean :
    (∀ data : List SalesRecord,
        data.filter (fun r => decide (0 < r.discount)) ≠ [] →
        (dashboardCards data).discountPercentage =
          some ((jsRound
            ((data.filter fun r => decide (0 < r.discount)).foldl
                (fun s r => s + r.discount) 0
              / (((data.filter fun r => decide (0 < r.discount)).length : Nat) : Rat)
              * 100 * 10) : Rat) / 10))
    ∧ dashboardCards [baseRec, cardRec2] = ⟨300, 3, some 20, 30⟩ := by
  constructor
  · intro data h
    have hpos : 0 < (data.filter fun r => decide (0 < r.discount)).length :=
      List.length_pos.mpr h
    simp only [dashboardCards, avgDiscount]
    rw [if_pos hpos]
  · have hfilter : ([baseRec, cardRec2].filter fun r => decide (0 < r.discount))
        = [cardRec2] := by
      norm_num [baseRec, cardRec2, List.filter_cons]
    simp only [dashboardCards, avgDiscount, hfilter, totalSalesR, totalProfitR,
      totalQuantityN, List.foldl_cons, List.foldl_nil, List.length_cons,
      List.length_nil, Cards.mk.injEq]
    norm_num [baseRec, cardRec2, jsRound]

theorem cardScenario_discount_filter :
    ([baseRec, cardRec2].filter fun r => decide (0 < r.discount)) = [cardRec2] := by
  norm_num [baseRec, cardRec2, List.filter_cons]

/-- C3 witness: the general mean formula applied at the two-record
scenario. -/
theorem dashboard_discountPercentage_mean_witness :
    (dashboardCards [baseRec, cardRec2]).discountPercentage =
      some ((jsRound
        (([baseRec, cardRec2].filter fun r => decide (0 < r.discount)).foldl
            (fun s r => s + r.discount) 0
          / ((([baseRec, cardRec2].filter fun r => decide (0 < r.discount)).length : Nat) : Rat)
          * 100 * 10) : Rat) / 10) :=
  dashboard_discountPercentage_mean.1 [baseRec, cardRec2]
    (by simp [cardScenario_discount_filter])

theorem baseRec_no_discount :
    ([baseRec].filter fun r => decide (0 < r.discount)) = [] := by
  norm_num [baseRec, List.filter_cons]

/-- C4 counterexample: on a one-record dataset with discount 0 the
dashboard `discountPercentage` is the concrete number 0 (the source's
`: 0` ternary default), not the undefined/NaN value the claim asserts. -/
theorem discountPercentage_not_nan_counterexample :
    (dashboardCards [baseRec]).discountPercentage = some 0
    ∧ (dashboardCards [baseRec]).discountPercentage ≠ none := by
  have h : (dashboardCards [baseRec]).discountPercentage = some 0 := by
    norm_num [dashboardCards, avgDiscount, baseRec_no_discount, jsRound]
  exact ⟨h, by rw [h]; simp⟩

/-- C4 amended: when no filtered record has a positive discount, the
engine substitutes the default 0 (the ternary's `: 0` branch), so
`discountPercentage` is 0 — never NaN — and no error is raised. -/
theorem discountPercentage_default_zero (data : List SalesRecord)
    (h : data.filter (fun r => decide (0 < r.discount)) = []) :
    (dashboardCards data).discountPercentage = some 0 := by
  simp only [dashboardCards, avgDiscount, h, List.length_nil]
  norm_num [jsRound]

/-- C4 witness: the amended statement applied at a concrete
zero-discount dataset. -/
theorem discountPercentage_default_zero_witness :
    (dashboardCards [baseRec]).discountPercentage = some 0 :=
  discountPercentage_default_zero [baseRec] baseRec_no_discount

/-- C5: a query whose filters match zero records yields
`totalOrders = 0`, `avgOrderValue` NaN (`none`), zero `uniqueCustomers`
and `totalCategories`, and empty `topProducts` and
`regionalPerformance`; the engine is a total function, so no error is
raised. -/
theorem analytics_empty_result (data : List SalesRecord) (s : Option String)
    (f t : Option DateT) (h : filterData data s f t = []) :
    analyticsSummary (filterData data s f t) = ⟨0, 0, none, 0⟩
    ∧ topProducts (filterData data s f t) = []
    ∧ regionArray (filterData data s f t) = [] := by
  rw [h]
  refine ⟨?_, ?_, ?_⟩
  · simp [analyticsSummary]
  · simp [topProducts, topProductsSorted, sortDescBy, prodAccum, accumBy]
  · simp [regionArray, regionAccum, accumBy]

/-- C5 witness: filtering the one-record dataset to the state "Texas"
matches nothing and produces the empty aggregates. -/
theorem analytics_empty_result_witness :
    analyticsSummary (filterData [baseRec] (some "Texas") none none) = ⟨0, 0, none, 0⟩
    ∧ topProducts (filterData [baseRec] (some "Texas") none none) = []
    ∧ regionArray (filterData [baseRec] (some "Texas") none none) = [] :=
  analytics_empty_result [baseRec] (some "Texas") none none (by decide)

/-- C2 (code bug): the `new Set(...)` spread in `/api/customers` never
deduplicates — a JS `Set` of per-record freshly allocated objects
compares by reference — so two identical records produce two identical
customer entries instead of the single deduplicated one the spec (and
the `new Set` wrapper's evident intent) requires. -/
theorem customers_no_dedup :
    customersData [baseRec, baseRec] =
      [⟨"CG-12520", "Claire Gute"⟩, ⟨"CG-12520", "Claire Gute"⟩] := by
  rw [customersData]
  have hmap : ([baseRec, baseRec].map fun r =>
        (⟨r.customerId, r.customerName⟩ : CustomerEntry))
      = List.replicate 2 ⟨"CG-12520", "Claire Gute"⟩ := rfl
  rw [hmap]
  exact List.perm_replicate.mp (List.mergeSort_perm _ _)

theorem fracRec_accum :
    prodAccum [fracRec, fracRec] = [("Pencil", ⟨"Pencil", "Furniture", 3/10 + 3/10, 0 + 0, 1 + 1, 1 + 1⟩)] := by
  simp [prodAccum, accumBy, upsertOne, fracRec, baseRec]

/-- C6 counterexample: two records of the same product with sales 0.3
each.  The raw group sum is 0.6; the externalized entry carries
`totalSales = round 0.6 = 1`, `orderCount = 2`, and
`avgOrderValue = round (0.6 / 2) = 0`, while the claim's formula
`round (round (sum) / orderCount) = round (1 / 2)` evaluates to 1. -/
theorem topProducts_rounding_counterexample :
    topProducts [fracRec, fracRec] = [⟨"Pencil", "Furniture", 1, 0, 2, 2, 0⟩]
    ∧ jsRound ((1 : Rat) / 2) = 1 := by
  constructor
  · rw [topProducts, topProductsSorted, fracRec_accum]
    simp only [List.map_cons, List.map_nil, sortDescBy, List.mergeSort_singleton,
      List.take_succ_cons, List.take_nil, prodEntryOf, ProdEntry.mk.injEq]
    norm_num [jsRound]
  · norm_num [jsRound]

/-- C6 amended: every group's externalized entry appears in the sorted
product (resp. region) sequence with `avgOrderValue` computed as
`Math.round` of the raw, unrounded group sum divided by the raw order
count — not from the separately rounded `totalSales`. -/
theorem avgOrderValue_uses_raw_sums :
    (∀ data : List SalesRecord, ∀ p ∈ prodAccum data,
        prodEntryOf p.2 ∈ topProductsSorted data
        ∧ (prodEntryOf p.2).avgOrderValue
            = jsRound (p.2.totalSales / (p.2.orderCount : Rat))
        ∧ (prodEntryOf p.2).totalSales = jsRound p.2.totalSales)
    ∧ (∀ data : List SalesRecord, ∀ p ∈ regionAccum data,
        regionEntryOf p.1 p.2 ∈ regionArray data
        ∧ (regionEntryOf p.1 p.2).avgOrderValue
            = jsRound (p.2.sales / (p.2.orders : Rat))) := by
  constructor
  · intro data p hp
    refine ⟨?_, rfl, rfl⟩
    rw [topProductsSorted, sortDescBy, List.mem_mergeSort]
    exact List.mem_map_of_mem _ hp
  · intro data p hp
    exact ⟨List.mem_map_of_mem _ hp, rfl⟩

theorem baseRec_prodAccum :
    prodAccum [baseRec] = [("Bookcase", ⟨"Bookcase", "Furniture", 100, 10, 1, 1⟩)] := by
  simp [prodAccum, accumBy, upsertOne, baseRec]

/-- C6 witness: the raw-sum average property applied at the
one-record dataset's single product group. -/
theorem avgOrderValue_uses_raw_sums_witness :
    prodEntryOf (⟨"Bookcase", "Furniture", 100, 10, 1, 1⟩ : ProdAcc)
        ∈ topProductsSorted [baseRec]
      ∧ (prodEntryOf (⟨"Bookcase", "Furniture", 100, 10, 1, 1⟩ : ProdAcc)).avgOrderValue
          = jsRound ((100 : Rat) / ((1 : Nat) : Rat))
      ∧ (prodEntryOf (⟨"Bookcase", "Furniture", 100, 10, 1, 1⟩ : ProdAcc)).totalSales
          = jsRound (100 : Rat) :=
  avgOrderValue_uses_raw_sums.1 [baseRec]
    ("Bookcase", ⟨"Bookcase", "Furniture", 100, 10, 1, 1⟩)
    (by simp [baseRec_prodAccum])

theorem catRec_category_sums :
    salesByCategoryArray [catRecB, catRecA] = [⟨"Technology", 1⟩, ⟨"Furniture", 2⟩]
    ∧ salesByCategoryArray [catRecA, catRecB] = [⟨"Furniture", 2⟩, ⟨"Technology", 1⟩] := by
  have hne : ("Technology" : String) ≠ "Furniture" := by decide
  have hne' : ("Furniture" : String) ≠ "Technology" := by decide
  constructor
  · simp only [salesByCategoryArray, sumByKey, accumBy, List.foldl_cons,
      List.foldl_nil, upsertOne, roundEntries, List.map_cons, List.map_nil]
    norm_num [catRecA, catRecB, baseRec, upsertOne, hne, hne',
      SalesEntry.mk.injEq, jsRound]
  · simp only [salesByCategoryArray, sumByKey, accumBy, List.foldl_cons,
      List.foldl_nil, upsertOne, roundEntries, List.map_cons, List.map_nil]
    norm_num [catRecA, catRecB, baseRec, upsertOne, hne, hne',
      SalesEntry.mk.injEq, jsRound]

/-- C7 counterexample: the category breakdown is emitted in
first-occurrence order — swapping the two input records swaps the two
output entries, so the output *does* depend on the insertion order of
the group keys and is not sorted (the first output is neither sorted by
sales nor by name). -/
theorem salesByCategory_order_counterexample :
    salesByCategoryArray [catRecB, catRecA] = [⟨"Technology", 1⟩, ⟨"Furniture", 2⟩]
    ∧ salesByCategoryArray [catRecA, catRecB] = [⟨"Furniture", 2⟩, ⟨"Technology", 1⟩]
    ∧ salesByCategoryArray [catRecB, catRecA] ≠ salesByCategoryArray [catRecA, catRecB] := by
  refine ⟨catRec_category_sums.1, catRec_category_sums.2, ?_⟩
  rw [catRec_category_sums.1, catRec_category_sums.2]
  simp

/-- C7 amended: the city/product/sub-category/top-product rankings are
explicitly sorted (see the top-N theorem), but the category, segment and
region breakdowns are externalized straight from the grouping pass: their
key order is exactly the first-occurrence order of the keys in the
filtered input, so it does depend on insertion order. -/
theorem grouped_breakdown_key_order (data : List SalesRecord) :
    (salesByCategoryArray data).map (·.key) = firstDedup (data.map (·.category))
    ∧ (salesBySegmentArray data).map (·.key) = firstDedup (data.map (·.segment))
    ∧ (regionArray data).map (·.region) = firstDedup (data.map (·.region)) := by
  refine ⟨?_, ?_, ?_⟩
  · rw [salesByCategoryArray, roundEntries, sumByKey, List.map_map,
      show ((fun e => e.key) ∘ fun p => (⟨p.1, jsRound p.2⟩ : SalesEntry)) = Prod.fst from rfl,
      accumBy_map_fst]
  · rw [salesBySegmentArray, roundEntries, sumByKey, List.map_map,
      show ((fun e => e.key) ∘ fun p => (⟨p.1, jsRound p.2⟩ : SalesEntry)) = Prod.fst from rfl,
      accumBy_map_fst]
  · rw [regionArray, regionAccum, List.map_map,
      show ((fun e => e.region) ∘ fun p => regionEntryOf p.1 p.2) = Prod.fst from rfl,
      accumBy_map_fst]

theorem topTen_facts {β : Type} (metric : β → Int) (l : List β) :
    ((sortDescBy metric l).take 10).length ≤ 10
    ∧ ((sortDescBy metric l).take 10).Pairwise (fun a b => metric b ≤ metric a)
    ∧ ∀ v : Int, (sortDescBy metric l).filter (fun e => metric e == v)
        = l.filter (fun e => metric e == v) :=
  ⟨List.length_take_le 10 _,
    List.Pairwise.sublist (List.take_sublist 10 _) (sortDescBy_pairwise metric l),
    fun v => sortDescBy_stable metric l v⟩

/-- C8: each top-N output is at most ten entries, sorted by its rounded
sales metric in non-increasing order, and the underlying stable sort
keeps groups with equal metric in the relative order of the grouping
pass (for each metric value, filtering the sorted sequence to that value
gives back exactly the grouping-pass subsequence); the category, segment
and region breakdowns are never truncated — one entry per distinct key. -/
theorem topN_invariants (data : List SalesRecord) :
    ((salesByCityArray data).length ≤ 10
      ∧ (salesByCityArray data).Pairwise (fun a b => b.sales ≤ a.sales)
      ∧ ∀ v : Int, (salesByCitySorted data).filter (fun e => e.sales == v)
          = (roundEntries (sumByKey (fun r => r.city) data)).filter
              (fun e => e.sales == v))
    ∧ ((salesByProductArray data).length ≤ 10
      ∧ (salesByProductArray data).Pairwise (fun a b => b.sales ≤ a.sales)
      ∧ ∀ v : Int, (salesByProductSorted data).filter (fun e => e.sales == v)
          = (roundEntries (sumByKey (fun r => r.productName) data)).filter
              (fun e => e.sales == v))
    ∧ ((salesBySubCategoryArray data).length ≤ 10
      ∧ (salesBySubCategoryArray data).Pairwise (fun a b => b.sales ≤ a.sales)
      ∧ ∀ v : Int, (salesBySubCategorySorted data).filter (fun e => e.sales == v)
          = (roundEntries (sumByKey (fun r => r.subCategory) data)).filter
              (fun e => e.sales == v))
    ∧ ((topProducts data).length ≤ 10
      ∧ (topProducts data).Pairwise (fun a b => b.totalSales ≤ a.totalSales)
      ∧ ∀ v : Int, (topProductsSorted data).filter (fun e => e.totalSales == v)
          = ((prodAccum data).map fun p => prodEntryOf p.2).filter
              (fun e => e.totalSales == v))
    ∧ (salesByCategoryArray data).length = (data.map (fun r => r.category)).toFinset.card
    ∧ (salesBySegmentArray data).length = (data.map (fun r => r.segment)).toFinset.card
    ∧ (regionArray data).length = (data.map (fun r => r.region)).toFinset.card := by
  refine ⟨topTen_facts _ _, topTen_facts _ _, topTen_facts _ _, topTen_facts _ _,
    ?_, ?_, ?_⟩
  · rw [salesByCategoryArray, roundEntries, List.length_map, sumByKey, accumBy_length]
  · rw [salesBySegmentArray, roundEntries, List.length_map, sumByKey, accumBy_length]
  · rw [regionArray, List.length_map, regionAccum, accumBy_length]

/-- C10: any period-granularity string other than the two recognized
specials "monthly" and "yearly" (e.g. the typo "monthy") makes the
trend bucketer derive the daily `YYYY-MM-DD` key for every record, so
its output equals the output for "daily". -/
theorem trend_fallback_daily (p : String) (h1 : p ≠ "monthly") (h2 : p ≠ "yearly")
    (data : List SalesRecord) : trendArray p data = trendArray "daily" data := by
  have hd1 : ¬("daily" : String) = "monthly" := by decide
  have hd2 : ¬("daily" : String) = "yearly" := by decide
  have hk : ∀ r : SalesRecord, trendKey p r = trendKey "daily" r := by
    intro r
    unfold trendKey
    cases r.orderDate with
    | some d => simp only [periodKey, if_neg h1, if_neg h2, if_neg hd1, if_neg hd2]
    | none => simp only [if_neg h1, if_neg h2, if_neg hd1, if_neg hd2]
  rw [trendArray, trendArray, trendFold, trendFold]
  simp only [hk]

/-- C10 witness: the typo granularity "monthy" behaves as "daily" on a
concrete dataset. -/
theorem trend_fallback_daily_witness :
    trendArray "monthy" [baseRec] = trendArray "daily" [baseRec] :=
  trend_fallback_daily "monthy" (by decide) (by decide) [baseRec]

theorem natDigits_small {n : Nat} (h : n < 10) : natDigits n = [n] := by
  rw [natDigits, dif_pos h]

theorem natDigits_step {n : Nat} (h : ¬ n < 10) :
    natDigits n = natDigits (n / 10) ++ [n % 10] := by
  rw [natDigits]
  exact dif_neg h

theorem natDigits_two {n : Nat} (h1 : 10 ≤ n) (h2 : n ≤ 99) :
    natDigits n = [n / 10, n % 10] := by
  rw [natDigits_step (by omega), natDigits_small (by omega)]
  rfl

theorem natDigits_four {n : Nat} (h1 : 1000 ≤ n) (h2 : n ≤ 9999) :
    natDigits n = [n / 1000, n / 100 % 10, n / 10 % 10, n % 10] := by
  have e10 : n / 10 / 10 = n / 100 := by omega
  have e100 : n / 100 / 10 = n / 1000 := by omega
  rw [natDigits_step (by omega), natDigits_step (by omega),
    natDigits_step (by omega), e10, e100, natDigits_small (by omega)]
  rfl

theorem digitChar_lt {a b : Nat} (ha : a < 10) (hb : b < 10) (h : a < b) :
    digitChar a < digitChar b := by
  interval_cases a <;> interval_cases b <;> revert h <;> decide

theorem charList_lt_cons (a : Char) {l1 l2 : List Char} (h : List.lt l1 l2) :
    List.lt (a :: l1) (a :: l2) :=
  List.lt.tail (lt_irrefl a) (lt_irrefl a) h

theorem charList_lt_append {l1 l2 : List Char} (h : List.lt l1 l2)
    (hlen : l1.length = l2.length) (r1 r2 : List Char) :
    List.lt (l1 ++ r1) (l2 ++ r2) := by
  induction h with
  | nil b bs => simp at hlen
  | head as bs hab => exact List.lt.head _ _ hab
  | tail hab hba h ih =>
    exact List.lt.tail hab hba (ih (by simpa using hlen))

theorem charList_lt_extend (A : List Char) {r1 r2 : List Char}
    (h : List.lt r1 r2) : List.lt (A ++ r1) (A ++ r2) := by
  induction A with
  | nil => exact h
  | cons a as ih => exact charList_lt_cons a ih

theorem digits4_lt {m n : Nat} (hm1 : 1000 ≤ m) (hm2 : m ≤ 9999)
    (hn1 : 1000 ≤ n) (hn2 : n ≤ 9999) (h : m < n) :
    List.lt ((natDigits m).map digitChar) ((natDigits n).map digitChar) := by
  rw [natDigits_four hm1 hm2, natDigits_four hn1 hn2]
  simp only [List.map_cons, List.map_nil]
  have hcase : m / 1000 < n / 1000
      ∨ (m / 1000 = n / 1000
        ∧ (m / 100 % 10 < n / 100 % 10
          ∨ (m / 100 % 10 = n / 100 % 10
            ∧ (m / 10 % 10 < n / 10 % 10
              ∨ (m / 10 % 10 = n / 10 % 10 ∧ m % 10 < n % 10))))) := by
    omega
  rcases hcase with h1 | ⟨e1, h2 | ⟨e2, h3 | ⟨e3, h4⟩⟩⟩
  · exact List.lt.head _ _ (digitChar_lt (by omega) (by omega) h1)
  · rw [e1]
    exact charList_lt_cons _ (List.lt.head _ _ (digitChar_lt (by omega) (by omega) h2))
  · rw [e1, e2]
    exact charList_lt_cons _ (charList_lt_cons _
      (List.lt.head _ _ (digitChar_lt (by omega) (by omega) h3)))
  · rw [e1, e2, e3]
    exact charList_lt_cons _ (charList_lt_cons _ (charList_lt_cons _
      (List.lt.head _ _ (digitChar_lt (by omega) (by omega) h4))))

theorem pad2_data {n : Nat} (h : n ≤ 99) :
    (pad2 n).data = if n < 10 then ['0', digitChar n]
      else [digitChar (n / 10), digitChar (n % 10)] := by
  by_cases h10 : n < 10
  · rw [pad2, if_pos h10, if_pos h10, natDigits_small h10]
    rfl
  · rw [pad2, if_neg h10, if_neg h10, jsNatToString, natDigits_two (by omega) h]
    rfl

theorem pad2_len {n : Nat} (h : n ≤ 99) : (pad2 n).data.length = 2 := by
  rw [pad2_data h]
  by_cases h10 : n < 10
  · rw [if_pos h10]; rfl
  · rw [if_neg h10]; rfl

theorem pad2_lt {m n : Nat} (hm : m ≤ 99) (hn : n ≤ 99) (h : m < n) :
    List.lt (pad2 m).data (pad2 n).data := by
  have h0 : '0' = digitChar 0 := by decide
  rw [pad2_data hm, pad2_data hn]
  by_cases hm10 : m < 10 <;> by_cases hn10 : n < 10
  · rw [if_pos hm10, if_pos hn10]
    exact charList_lt_cons _ (List.lt.head _ _ (digitChar_lt hm10 hn10 h))
  · rw [if_pos hm10, if_neg hn10, h0]
    exact List.lt.head _ _ (digitChar_lt (by omega) (by omega) (by omega))
  · omega
  · rw [if_neg hm10, if_neg hn10]
    have hcase : m / 10 < n / 10 ∨ (m / 10 = n / 10 ∧ m % 10 < n % 10) := by omega
    rcases hcase with h1 | ⟨e1, h2⟩
    · exact List.lt.head _ _ (digitChar_lt (by omega) (by omega) h1)
    · rw [e1]
      exact charList_lt_cons _ (List.lt.head _ _ (digitChar_lt (by omega) (by omega) h2))

theorem pad4_eq_digits {n : Nat} (h : 1000 ≤ n) : pad4 n = jsNatToString n := by
  rw [pad4, if_neg (by omega), if_neg (by omega), if_neg (by omega)]

theorem string_lt_of_data {s t : String} (h : List.lt s.data t.data) : s < t := by
  rw [String.lt_iff_toList_lt]
  exact (List.lt_iff_lex_lt _ _).mp h

theorem monthlyKey_data (y m : Nat) :
    (jsNatToString y ++ "-" ++ pad2 m).data
      = (natDigits y).map digitChar ++ '-' :: (pad2 m).data := by
  simp [String.data_append, jsNatToString]

theorem isoDay_data (d : DateT) (h : 1000 ≤ d.year) :
    (isoDay d).data = (natDigits d.year).map digitChar
      ++ '-' :: ((pad2 d.month).data ++ '-' :: (pad2 d.day).data) := by
  rw [isoDay, pad4_eq_digits h]
  simp [String.data_append, jsNatToString]

theorem digits4_len {n : Nat} (h1 : 1000 ≤ n) (h2 : n ≤ 9999) :
    ((natDigits n).map digitChar).length = 4 := by
  rw [natDigits_four h1 h2]
  rfl

/-- C9 amended: for valid dates whose years have four decimal digits
(1000–9999, as every `YYYY-MM-DD` source date with `getFullYear()`
printing four characters does), `periodKey` is monotone for every
granularity string: chronologically earlier dates get lexicographically
smaller-or-equal keys, so the lexicographically sorted trend output is
chronologically ascending.  (For years below 1000 the unpadded
`getFullYear().toString()` breaks this, see the counterexample.) -/
theorem periodKey_monotone (g : String) (d1 d2 : DateT)
    (hv1 : ValidDate d1) (hv2 : ValidDate d2)
    (hy1 : 1000 ≤ d1.year) (hy2 : d1.year ≤ 9999)
    (hy3 : 1000 ≤ d2.year) (hy4 : d2.year ≤ 9999)
    (hlt : DateT.chronLT d1 d2 = true) :
    periodKey g d1 ≤ periodKey g d2 := by
  obtain ⟨hm1, hm2, hd1, hd2⟩ := hv1
  obtain ⟨hm3, hm4, hd3, hd4⟩ := hv2
  have hcase : d1.year < d2.year
      ∨ (d1.year = d2.year ∧ (d1.month < d2.month
        ∨ (d1.month = d2.month ∧ d1.day < d2.day))) := by
    simpa only [DateT.chronLT, Bool.or_eq_true, Bool.and_eq_true,
      decide_eq_true_eq] using hlt
  rw [periodKey, periodKey]
  by_cases hg1 : g = "monthly"
  · rw [if_pos hg1, if_pos hg1]
    rcases hcase with hy | ⟨hyeq, hm | ⟨hmeq, _⟩⟩
    · refine le_of_lt (string_lt_of_data ?_)
      rw [monthlyKey_data, monthlyKey_data]
      exact charList_lt_append (digits4_lt hy1 hy2 hy3 hy4 hy)
        (by rw [digits4_len hy1 hy2, digits4_len hy3 hy4]) _ _
    · refine le_of_lt (string_lt_of_data ?_)
      rw [monthlyKey_data, monthlyKey_data, hyeq]
      exact charList_lt_extend _
        (charList_lt_cons _ (pad2_lt (by omega) (by omega) hm))
    · exact le_of_eq (by rw [hyeq, hmeq])
  · by_cases hg2 : g = "yearly"
    · rw [if_neg hg1, if_neg hg1, if_pos hg2, if_pos hg2]
      rcases hcase with hy | ⟨hyeq, _⟩
      · exact le_of_lt (string_lt_of_data (digits4_lt hy1 hy2 hy3 hy4 hy))
      · exact le_of_eq (by rw [hyeq])
    · rw [if_neg hg1, if_neg hg1, if_neg hg2, if_neg hg2]
      rcases hcase with hy | ⟨hyeq, hm | ⟨hmeq, hd⟩⟩
      · refine le_of_lt (string_lt_of_data ?_)
        rw [isoDay_data _ hy1, isoDay_data _ hy3]
        exact charList_lt_append (digits4_lt hy1 hy2 hy3 hy4 hy)
          (by rw [digits4_len hy1 hy2, digits4_len hy3 hy4]) _ _
      · refine le_of_lt (string_lt_of_data ?_)
        rw [isoDay_data _ hy1, isoDay_data _ hy3, hyeq]
        refine charList_lt_extend _ (charList_lt_cons _ ?_)
        exact charList_lt_append (pad2_lt (by omega) (by omega) hm)
          (by rw [pad2_len (show d1.month ≤ 99 by omega),
            pad2_len (show d2.month ≤ 99 by omega)]) _ _
      · refine le_of_lt (string_lt_of_data ?_)
        rw [isoDay_data _ hy1, isoDay_data _ hy3, hyeq, hmeq]
        refine charList_lt_extend _ (charList_lt_cons _
          (charList_lt_extend _ (charList_lt_cons _ ?_)))
        exact pad2_lt (by omega) (by omega) hd

/-- C9 witness: monotonicity applied at two concrete 2016 dates under
the monthly granularity. -/
theorem periodKey_monotone_witness :
    periodKey "monthly" ⟨2016, 1, 5⟩ ≤ periodKey "monthly" ⟨2016, 6, 15⟩ :=
  periodKey_monotone "monthly" ⟨2016, 1, 5⟩ ⟨2016, 6, 15⟩
    ⟨by decide, by decide, by decide, by decide⟩
    ⟨by decide, by decide, by decide, by decide⟩
    (by decide) (by decide) (by decide) (by decide) (by decide)

/-- C9 counterexample: the valid dates 0999-12-31 < 1000-01-01 (both
acceptable `YYYY-MM-DD` inputs) get the yearly keys "999" and "1000",
and "999" is lexicographically *greater* than "1000", so the claimed
monotonicity fails for every valid date below year 1000. -/
theorem periodKey_monotone_counterexample :
    ValidDate ⟨999, 12, 31⟩ ∧ ValidDate ⟨1000, 1, 1⟩
    ∧ DateT.chronLT ⟨999, 12, 31⟩ ⟨1000, 1, 1⟩ = true
    ∧ ¬ (periodKey "yearly" ⟨999, 12, 31⟩ ≤ periodKey "yearly" ⟨1000, 1, 1⟩) := by
  refine ⟨⟨by decide, by decide, by decide, by decide⟩,
    ⟨by decide, by decide, by decide, by decide⟩, by decide, ?_⟩
  have e1 : periodKey "yearly" ⟨999, 12, 31⟩ = "999" := by
    have h9 : natDigits 999 = [9, 9, 9] := by
      rw [natDigits_step (by omega), natDigits_two (by omega) (by omega)]
      rfl
    rw [periodKey, if_neg (by decide), if_pos rfl, jsNatToString, h9]
    decide
  have e2 : periodKey "yearly" ⟨1000, 1, 1⟩ = "1000" := by
    have h1 : natDigits 1000 = [1, 0, 0, 0] := natDigits_four (by omega) (by omega)
    rw [periodKey, if_neg (by decide), if_pos rfl, jsNatToString, h1]
    decide
  rw [e1, e2]
  exact not_le.mpr (string_lt_of_data (List.lt.head _ _ (by decide)))
